import Mathlib

set_option maxHeartbeats 1000000

/-!
Shallow embedding of the bms-scraper2 pipeline: row normalization, complimentary
ticket expansion, transaction backfill, identity matching and referral
aggregation, together with proofs about the embedded operations.
-/

/-- JS truthiness fallback `a || b` on strings (empty string is falsy). -/
def jsOrS (a b : String) : String := if a = "" then b else a

/-- JS truthiness fallback `a || b` on numbers (0 is falsy). -/
def jsOrQ (a b : ℚ) : ℚ := if a = 0 then b else a

/-- Characters removed by `.replace(/[\s\-\+]/g, "")`. -/
def phoneStripChar (c : Char) : Bool := c.isWhitespace || c = '-' || c = '+'

/-- `phone.replace(/[\s\-\+]/g, "")`, as a character list. -/
def phoneClean (s : String) : List Char := s.data.filter (fun c => !phoneStripChar c)

/-- `.replace(/^91/, "")`: drop a single leading "91" when present. -/
def strip91 (l : List Char) : List Char := if ['9', '1'].isPrefixOf l then l.drop 2 else l

/-- `.slice(-10)`: the last `n` characters. -/
def lastN (n : Nat) (l : List Char) : List Char := l.drop (l.length - n)

/-- Phone key for a group member: `mobileNumber.replace(/[\s\-\+]/g,"").replace(/^91/,"")`,
then the last 10 characters when at least 10 remain, else no key. -/
def normPhoneMember (s : String) : Option String :=
  let c := strip91 (phoneClean s)
  if 10 ≤ c.length then some (String.mk (lastN 10 c)) else none

/-- Phone key for a registration inside the matcher: the same expression as
`normPhoneMember`, written at the registration side of the loop. -/
def normPhoneRegSite (s : String) : Option String :=
  let c := strip91 (phoneClean s)
  if 10 ≤ c.length then some (String.mk (lastN 10 c)) else none

/-- Phone key used when building the previous-participants lookup: the leading
"91" is dropped only when more than 10 characters remain. -/
def normPhoneHist (s : String) : Option String :=
  let c := phoneClean s
  let c2 := if ['9', '1'].isPrefixOf c ∧ 10 < c.length then c.drop 2 else c
  if 10 ≤ c2.length then some (String.mk (lastN 10 c2)) else none

/-- Character-list core of `.trim()`. -/
def trimChars (l : List Char) : List Char :=
  ((l.dropWhile Char.isWhitespace).reverse.dropWhile Char.isWhitespace).reverse

/-- `.trim()`. -/
def jsTrim (s : String) : String := String.mk (trimChars s.data)

/-- `.toLowerCase()`: lower-case every character. -/
def jsLower (s : String) : String := String.mk (s.data.map Char.toLower)

/-- `.toLowerCase().trim()`, the name/email normalization of the matcher. -/
def lowerTrim (s : String) : String := jsTrim (jsLower s)

/-- Split on a single-character separator, keeping empty segments, as
`String.prototype.split` does. -/
def splitChar (sep : Char) : List Char → List (List Char)
  | [] => [[]]
  | c :: cs =>
    let r := splitChar sep cs
    if c = sep then [] :: r
    else
      match r with
      | [] => [[c]]
      | h :: t => (c :: h) :: t

/-- `.split(sep)` for a one-character separator. -/
def jsSplit (s : String) (sep : Char) : List String := (splitChar sep s.data).map String.mk

/-- `.join(sep)`. -/
def jsJoin (sep : String) : List String → String
  | [] => ""
  | [x] => x
  | x :: y :: xs => x ++ sep ++ jsJoin sep (y :: xs)

/-- `.substring(0, n)`. -/
def jsTake (s : String) (n : Nat) : String := String.mk (s.data.take n)

/-- `.startsWith(pre)`. -/
def jsStartsWith (s pre : String) : Bool := pre.data.isPrefixOf s.data

/-- Substring test on character lists. -/
def listHasSub (sub : List Char) : List Char → Bool
  | [] => sub.isEmpty
  | c :: cs => sub.isPrefixOf (c :: cs) || listHasSub sub cs

/-- `.includes(sub)`. -/
def jsIncludes (s sub : String) : Bool := listHasSub sub.data s.data

/-- Character class `[a-zA-Z0-9._%+-]` of the email pattern. -/
def isEmailA (c : Char) : Bool :=
  c.isAlphanum || c = '.' || c = '_' || c = '%' || c = '+' || c = '-'

/-- Character class `[a-zA-Z0-9.-]` of the email pattern. -/
def isEmailB (c : Char) : Bool := c.isAlphanum || c = '.' || c = '-'

/-- Attempt to close `[a-zA-Z0-9.-]+\.[a-zA-Z]{2,}` with the `+` part taking
exactly `j` characters of the maximal B-class run. -/
def emailTailAt (bRun : List Char) (j : Nat) : Option (List Char) :=
  if 1 ≤ j ∧ bRun.getD j ' ' = '.' then
    let cRun := (bRun.drop (j + 1)).takeWhile Char.isAlpha
    if 2 ≤ cRun.length then some (bRun.take j ++ '.' :: cRun) else none
  else none

/-- Backtracking over the split position, longest `+` part first (greedy). -/
def emailTailSearch (bRun : List Char) : Nat → Option (List Char)
  | 0 => none
  | j + 1 =>
    match emailTailAt bRun (j + 1) with
    | some t => some t
    | none => emailTailSearch bRun j

/-- One attempt of the email pattern anchored at the head of `l`. -/
def emailMatchAt (l : List Char) : Option (List Char) :=
  let aRun := l.takeWhile isEmailA
  if aRun.isEmpty then none
  else
    match l.drop aRun.length with
    | '@' :: rest =>
      let bRun := rest.takeWhile isEmailB
      match emailTailSearch bRun (bRun.length - 1) with
      | some t => some (aRun ++ '@' :: t)
      | none => none
    | _ => none

/-- Leftmost match of the email pattern, as `String.prototype.match` finds it. -/
def emailScan : List Char → Option (List Char)
  | [] => none
  | c :: cs =>
    match emailMatchAt (c :: cs) with
    | some m => some m
    | none => emailScan cs

/-- First `[a-zA-Z0-9._%+-]+@[a-zA-Z0-9.-]+\.[a-zA-Z]{2,}` substring, if any. -/
def emailMatch (s : String) : Option String := (emailScan s.data).map String.mk

/-- Embeds `extractProtectedEmail`: empty or whitespace-only input yields `""`;
the Cloudflare placeholder markup yields the fixed sentinel; else the first
email-shaped substring; else the trimmed input itself. -/
def extractProtectedEmail (emailHtml : String) : String :=
  if emailHtml = "" ∨ jsTrim emailHtml = "" then ""
  else if jsIncludes emailHtml "[email&#160;protected]" then "[email protected]"
  else
    match emailMatch emailHtml with
    | some m => m
    | none => jsTrim emailHtml

/-- A registration document as the stats job reads it (customer identity,
contact keys, transaction date and the five referral-invitee triples). -/
structure StatsReg where
  registrationId : String
  customerName : String
  phone : String
  primaryPhoneNo : String
  email : String
  Trans_Date : String
  name_1 : String
  mobile_number_1 : String
  email_id_1 : String
  name_2 : String
  mobile_number_2 : String
  email_id_2 : String
  name_3 : String
  mobile_number_3 : String
  email_id_3 : String
  name_4 : String
  mobile_number_4 : String
  email_id_4 : String
  name_5 : String
  mobile_number_5 : String
  email_id_5 : String
deriving DecidableEq, Inhabited

/-- A group-roster entry as the matcher reads it. -/
structure ArpitMember where
  fullName : String
  mobileNumber : String
  email : String
deriving DecidableEq, Inhabited

/-- `(reg.phone || reg.primaryPhoneNo || '')` fed through the matcher's phone
normalization. -/
def regPhone10 (r : StatsReg) : Option String :=
  normPhoneRegSite (jsOrS r.phone (jsOrS r.primaryPhoneNo ""))

/-- Candidate score: +3 on a phone10 match, +2 on a normalized-email match. -/
def scoreReg (mPhone : Option String) (mEmail : String) (r : StatsReg) : Nat :=
  (if mPhone.isSome && regPhone10 r == mPhone then 3 else 0) +
    (if !(mEmail == "") && !(lowerTrim r.email == "") && mEmail == lowerTrim r.email then 2
     else 0)

/-- The name step of the matching loop: collect the not-yet-claimed
registrations with the member's normalized name, keep a running best score,
and accept the best candidate when its score is positive or the candidate set
is a singleton. The running best is only replaced on a strictly greater score,
so it stays empty when every candidate scores zero. -/
def nameStep (regs : List StatsReg) (used : List String)
    (mName : String) (mPhone : Option String) (mEmail : String) : Option StatsReg :=
  let nameMatchingRegs := regs.filter fun r =>
    !(used.contains r.registrationId) &&
      (!(mName == "") && !(lowerTrim r.customerName == "") && mName == lowerTrim r.customerName)
  let best := nameMatchingRegs.foldl
    (fun bp r => if bp.1 < scoreReg mPhone mEmail r then (scoreReg mPhone mEmail r, some r) else bp)
    ((0 : Nat), (none : Option StatsReg))
  match best.2 with
  | some b => if 0 < best.1 ∨ nameMatchingRegs.length = 1 then some b else none
  | none => none

/-- Phone fallback: the first not-yet-claimed registration with the member's
phone10 key. -/
def phoneStep (regs : List StatsReg) (used : List String) (mPhone : Option String) :
    Option StatsReg :=
  match mPhone with
  | some p => regs.find? fun r => !(used.contains r.registrationId) && regPhone10 r == some p
  | none => none

/-- Email fallback: the first not-yet-claimed registration with the member's
normalized email. -/
def emailStep (regs : List StatsReg) (used : List String) (mEmail : String) :
    Option StatsReg :=
  if mEmail == "" then none
  else
    regs.find? fun r =>
      !(used.contains r.registrationId) &&
        (!(lowerTrim r.email == "") && mEmail == lowerTrim r.email)

/-- One iteration of the matching loop for a single member: the name-scoring
step followed by the phone fallback and the email fallback, each restricted to
registrations whose id is not yet claimed. -/
def matchMember (regs : List StatsReg) (used : List String) (m : ArpitMember) :
    Option StatsReg :=
  let mName := lowerTrim m.fullName
  let mPhone := normPhoneMember m.mobileNumber
  let mEmail := lowerTrim m.email
  match nameStep regs used mName mPhone mEmail with
  | some r => some r
  | none =>
    match phoneStep regs used mPhone with
    | some r => some r
    | none => emailStep regs used mEmail

/-- The matching loop over members in roster order, threading the claimed-id
set; yields (member index, claimed registration id) links. -/
def runMatcherAux (regs : List StatsReg) :
    List ArpitMember → List String → Nat → List (Nat × String)
  | [], _, _ => []
  | m :: ms, used, idx =>
    match matchMember regs used m with
    | some r => (idx, r.registrationId) :: runMatcherAux regs ms (r.registrationId :: used) (idx + 1)
    | none => runMatcherAux regs ms used (idx + 1)

/-- The full member-to-registration matching pass. -/
def runMatcher (regs : List StatsReg) (members : List ArpitMember) : List (Nat × String) :=
  runMatcherAux regs members [] 0

/-- Digits to a natural number. -/
def digitsToNat (l : List Char) : Nat := l.foldl (fun n c => n * 10 + (c.toNat - '0'.toNat)) 0

/-- `parseFloat` on decimal/exponent notation: longest numeric prefix after
leading whitespace, `none` standing for NaN. The value
sign * (intDigits.fracDigits) * 10 ^ exponent is assembled over ℤ with a
power-of-ten denominator. -/
def parseFloatQ (s : String) : Option ℚ :=
  let l := s.data.dropWhile Char.isWhitespace
  let signAndRest : ℤ × List Char :=
    match l with
    | '-' :: t => (-1, t)
    | '+' :: t => (1, t)
    | _ => (1, l)
  let l1 := signAndRest.2
  let intPart := l1.takeWhile Char.isDigit
  let l2 := l1.drop intPart.length
  let fracAndRest : List Char × List Char :=
    match l2 with
    | '.' :: t => (t.takeWhile Char.isDigit, t.dropWhile Char.isDigit)
    | _ => ([], l2)
  let fracPart := fracAndRest.1
  if intPart.isEmpty ∧ fracPart.isEmpty then none
  else
    let mantissa : ℤ :=
      signAndRest.1 *
        ((digitsToNat intPart * 10 ^ fracPart.length + digitsToNat fracPart : ℕ) : ℤ)
    let expVal : ℤ :=
      match fracAndRest.2 with
      | 'e' :: t | 'E' :: t =>
        match t with
        | '-' :: d =>
          let ds := d.takeWhile Char.isDigit
          if ds.isEmpty then 0 else -(digitsToNat ds : ℤ)
        | '+' :: d =>
          let ds := d.takeWhile Char.isDigit
          if ds.isEmpty then 0 else (digitsToNat ds : ℤ)
        | d =>
          let ds := d.takeWhile Char.isDigit
          if ds.isEmpty then 0 else (digitsToNat ds : ℤ)
      | _ => 0
    let t : ℤ := expVal - (fracPart.length : ℤ)
    some (if 0 ≤ t then ((mantissa * 10 ^ t.toNat : ℤ) : ℚ) else mkRat mantissa (10 ^ (-t).toNat))

/-- Embeds `parseNumber`: strip thousands separators, trim, parse, NaN to 0. -/
def parseNumber (text : String) : ℚ :=
  (parseFloatQ (jsTrim (String.mk (text.data.filter (fun c => c ≠ ','))))).getD 0

/-- A canonical registration record as the scraper builds it. Date-object and
run-metadata fields (fetch timestamps, data-source tags) are not read by any
later stage and are left out of the embedding. -/
structure Registration where
  Trans_Id : String
  Bkg_Commit : String
  Trans_Date : String
  Cinema_Name : String
  Event_Name : String
  Show_Date_Disp : String
  Ticketwise_Qty : ℚ
  Seat_Info : String
  Ticket_Qty : ℚ
  Ticket_Amt : ℚ
  Item_Desc : String
  ItemWise_Qty : ℚ
  ItemWise_Amt : ℚ
  Inv_Qty : ℚ
  Inv_Amt : ℚ
  Additional_Desc : String
  Add_strAmt : ℚ
  Add_Charges : ℚ
  first_name : String
  last_name : String
  age : ℚ
  gender : String
  primary_phoneNo : String
  primary_email : String
  pincode : String
  name_1 : String
  mobile_number_1 : String
  email_id_1 : String
  name_2 : String
  mobile_number_2 : String
  email_id_2 : String
  name_3 : String
  mobile_number_3 : String
  email_id_3 : String
  name_4 : String
  mobile_number_4 : String
  email_id_4 : String
  name_5 : String
  mobile_number_5 : String
  email_id_5 : String
  full_name : String
  FullName : String
  MobileNumber : String
  Email : String
  customerName : String
  phone : String
  email : String
  ticketType : String
  quantity : ℚ
  registrationId : String
deriving DecidableEq, Inhabited

/-- `$(cells[i]).text().trim()`; a missing cell reads as the empty string. -/
def cellText (cells : List String) (i : Nat) : String := jsTrim (cells.getD i "")

/-- `$(cells[i]).text()` without trimming (as handed to `parseNumber`). -/
def cellRaw (cells : List String) (i : Nat) : String := cells.getD i ""

/-- Output of the per-row normalization before expansion: the base record plus
the quantities that drive complimentary expansion. -/
structure RowParse where
  base : Registration
  isComp : Bool
  ticketQty : ℚ
  transId : String
deriving Inhabited

/-- Raw ticket quantity of a row: column 10, defaulting to 1. -/
def rowTicketQty (cells : List String) : ℚ := jsOrQ (parseNumber (cellRaw cells 10)) 1

/-- Ticket amount of a row: column 11, defaulting to 0. -/
def rowTicketAmt (cells : List String) : ℚ := jsOrQ (parseNumber (cellRaw cells 11)) 0

/-- Complimentary test: zero amount, or a complimentary marker in the seat
info. -/
def rowIsComp (cells : List String) : Bool :=
  rowTicketAmt cells == 0 ||
    (!(cellText cells 9 == "") && jsIncludes (jsLower (cellText cells 9)) "complimentary")

/-- The last resort of the name resolution: when no step produced a customer
name, synthesize a guest label from the first 8 characters of the transaction
id. -/
def guestFallback (transId : String) (p : String × String × String × String) :
    String × String × String × String :=
  if p.2.2.1 = "" then
    let fn := "Guest_" ++ jsTake transId 8
    (fn, "", jsTrim (fn ++ " " ++ ""), p.2.2.2)
  else p

/-- The four-step name resolution and phone pick of the row parser, producing
(first name, last name, customer name, phone): discrete name columns, else the
split full-name column, else the complimentary full-name column with any
parenthetical stripped, else a synthetic guest label from the transaction id;
the phone falls back to the complimentary mobile column on complimentary rows
with no primary phone. -/
def resolveNamePhone (cells : List String) : String × String × String × String :=
  let firstName0 := cellText cells 20
  let lastName0 := cellText cells 21
  let fullNameField := cellText cells 45
  let split1 :=
    if firstName0 = "" ∧ lastName0 = "" ∧ fullNameField ≠ "" then
      let nameParts := jsSplit fullNameField ' '
      let fn := nameParts.getD 0 ""
      (fn, jsOrS (jsJoin " " (nameParts.drop 1)) fn)
    else (firstName0, lastName0)
  let customerName1 := jsTrim (split1.1 ++ " " ++ split1.2)
  let transId := cellText cells 2
  let fullNameFromComp := cellText cells 49
  let mobileFromComp := cellText cells 50
  let phoneNumber0 := cellText cells 24
  let step2 :=
    if rowIsComp cells ∧ (split1.1 = "" ∨ jsStartsWith split1.1 "Guest_" ∨ customerName1 = "") then
      let nm :=
        if fullNameFromComp ≠ "" ∧ jsTrim fullNameFromComp ≠ "" then
          let cleanName := jsTrim ((jsSplit fullNameFromComp '(').getD 0 "")
          if cleanName ≠ "" then
            let nameParts := jsSplit cleanName ' '
            (jsOrS (nameParts.getD 0 "") "",
              jsJoin " " (nameParts.drop 1), cleanName)
          else (split1.1, split1.2, customerName1)
        else (split1.1, split1.2, customerName1)
      let ph :=
        if mobileFromComp ≠ "" ∧ jsTrim mobileFromComp ≠ "" ∧ phoneNumber0 = "" then
          mobileFromComp
        else phoneNumber0
      (nm.1, nm.2.1, nm.2.2, ph)
    else (split1.1, split1.2, customerName1, phoneNumber0)
  guestFallback transId step2

/-- Embeds the per-row normalization of `scrapeRegistrationDetails`: the
four-step name resolution, complimentary detection and the field mapping. -/
def parseRowCore (cells : List String) : RowParse :=
  let fullNameField := cellText cells 45
  let transDate := cellText cells 4
  let transId := cellText cells 2
  let ticketQty := rowTicketQty cells
  let ticketAmt := rowTicketAmt cells
  let seatInfo := cellText cells 9
  let isComp : Bool := rowIsComp cells
  let fullNameFromComp := cellText cells 49
  let mobileFromComp := cellText cells 50
  let resolved := resolveNamePhone cells
  let firstName := resolved.1
  let lastName := resolved.2.1
  let customerName := resolved.2.2.1
  let phoneNumber := resolved.2.2.2
  let itemDesc := cellText cells 12
  let base : Registration :=
    { Trans_Id := transId
      Bkg_Commit := cellText cells 3
      Trans_Date := transDate
      Cinema_Name := cellText cells 5
      Event_Name := jsOrS (cellText cells 6) "Global Youth Festival 2025"
      Show_Date_Disp := cellText cells 7
      Ticketwise_Qty := jsOrQ (parseNumber (cellRaw cells 8)) 0
      Seat_Info := seatInfo
      Ticket_Qty := 1
      Ticket_Amt := ticketAmt
      Item_Desc := itemDesc
      ItemWise_Qty := jsOrQ (parseNumber (cellRaw cells 13)) 0
      ItemWise_Amt := jsOrQ (parseNumber (cellRaw cells 14)) 0
      Inv_Qty := jsOrQ (parseNumber (cellRaw cells 15)) 0
      Inv_Amt := jsOrQ (parseNumber (cellRaw cells 16)) 0
      Additional_Desc := cellText cells 17
      Add_strAmt := jsOrQ (parseNumber (cellRaw cells 18)) 0
      Add_Charges := jsOrQ (parseNumber (cellRaw cells 19)) 0
      first_name := firstName
      last_name := lastName
      age := jsOrQ (parseNumber (cellRaw cells 22)) (jsOrQ (parseNumber (cellRaw cells 53)) 0)
      gender := cellText cells 23
      primary_phoneNo := phoneNumber
      primary_email := extractProtectedEmail (cellText cells 25)
      pincode := cellText cells 26
      name_1 := cellText cells 29
      mobile_number_1 := cellText cells 30
      email_id_1 := extractProtectedEmail (cellText cells 31)
      name_2 := cellText cells 32
      mobile_number_2 := cellText cells 33
      email_id_2 := extractProtectedEmail (cellText cells 34)
      name_3 := cellText cells 35
      mobile_number_3 := cellText cells 36
      email_id_3 := extractProtectedEmail (cellText cells 37)
      name_4 := cellText cells 38
      mobile_number_4 := cellText cells 39
      email_id_4 := extractProtectedEmail (cellText cells 40)
      name_5 := cellText cells 41
      mobile_number_5 := cellText cells 42
      email_id_5 := extractProtectedEmail (cellText cells 43)
      full_name := fullNameField
      FullName := fullNameFromComp
      MobileNumber := mobileFromComp
      Email := extractProtectedEmail (cellText cells 51)
      customerName := customerName
      phone := phoneNumber
      email := extractProtectedEmail (cellText cells 25)
      ticketType :=
        if itemDesc ≠ "" ∧ itemDesc ≠ "-" then itemDesc
        else if seatInfo ≠ "" ∧ seatInfo ≠ "-" then seatInfo
        else "Festival Pass"
      quantity := 1
      registrationId := "" }
  { base := base, isComp := isComp, ticketQty := ticketQty, transId := transId }

/-- Embeds the complimentary-ticket expansion loop: a complimentary row with
quantity above 1 yields that many copies with suffixed identifiers, any other
row passes through once with its transaction id. -/
def expandEntries (rp : RowParse) : List Registration :=
  let entriesToCreate : ℚ := if rp.isComp ∧ 1 < rp.ticketQty then rp.ticketQty else 1
  (List.range (⌈entriesToCreate⌉ : ℤ).toNat).map fun entryIndex =>
    { rp.base with
      registrationId :=
        if 1 < entriesToCreate then rp.transId ++ "_comp_" ++ toString (entryIndex + 1)
        else rp.transId }

/-- Normalization plus expansion for one raw data row. -/
def processRow (cells : List String) : List Registration := expandEntries (parseRowCore cells)

/-- Fill a string field from the primary when the person's copy is empty. -/
def fillS (a b : String) : String := if a = "" then b else a

/-- Fill a numeric field from the primary when the person's copy is zero. -/
def fillQ (a b : ℚ) : ℚ := if a = 0 then b else a

/-- Copy the transaction-level fields (`fieldsToFill`) from the primary holder
into a sibling's empty or zero slots; person-level fields are untouched. -/
def fillFrom (primary person : Registration) : Registration :=
  { person with
    Trans_Date := fillS person.Trans_Date primary.Trans_Date
    Cinema_Name := fillS person.Cinema_Name primary.Cinema_Name
    Event_Name := fillS person.Event_Name primary.Event_Name
    Show_Date_Disp := fillS person.Show_Date_Disp primary.Show_Date_Disp
    Ticketwise_Qty := fillQ person.Ticketwise_Qty primary.Ticketwise_Qty
    Seat_Info := fillS person.Seat_Info primary.Seat_Info
    Ticket_Qty := fillQ person.Ticket_Qty primary.Ticket_Qty
    Ticket_Amt := fillQ person.Ticket_Amt primary.Ticket_Amt
    Item_Desc := fillS person.Item_Desc primary.Item_Desc
    ItemWise_Qty := fillQ person.ItemWise_Qty primary.ItemWise_Qty
    ItemWise_Amt := fillQ person.ItemWise_Amt primary.ItemWise_Amt
    Inv_Qty := fillQ person.Inv_Qty primary.Inv_Qty
    Inv_Amt := fillQ person.Inv_Amt primary.Inv_Amt
    Additional_Desc := fillS person.Additional_Desc primary.Additional_Desc
    Add_strAmt := fillQ person.Add_strAmt primary.Add_strAmt
    Add_Charges := fillQ person.Add_Charges primary.Add_Charges
    Bkg_Commit := fillS person.Bkg_Commit primary.Bkg_Commit }

/-- The primary-holder test: transaction date, venue, event name, show date
all present and a positive ticket quantity. -/
def completeRec (person : Registration) : Bool :=
  !(person.Trans_Date == "") && !(person.Cinema_Name == "") && !(person.Event_Name == "") &&
    !(person.Show_Date_Disp == "") && decide (0 < person.Ticket_Qty)

/-- Index of the primary holder: the first complete record, else the first. -/
def primaryIdx (g : List Registration) : Nat :=
  let j := g.findIdx completeRec
  if j < g.length then j else 0

/-- Apply `fillFrom` to every record except the one at the primary index. -/
def fillAux (primary : Registration) (pIdx : Nat) : Nat → List Registration → List Registration
  | _, [] => []
  | i, x :: xs => (if i = pIdx then x else fillFrom primary x) :: fillAux primary pIdx (i + 1) xs

/-- Embeds the transaction-backfill pass on one `Trans_Id` group: for groups of
size above one, pick the primary holder and fill every sibling's missing
transaction details from it. -/
def backfillGroup (g : List Registration) : List Registration :=
  if 1 < g.length then
    fillAux (g.getD (primaryIdx g) default) (primaryIdx g) 0 g
  else g

/-- One step of the row loop: a row with fewer than 45 cells is counted and
skipped; a row whose parse fails is counted and skipped; otherwise its records
are appended. The row parser is a parameter, standing for the `try` body. -/
def batchStep (p : List String → Except String (List Registration))
    (acc : List Registration × Nat) (row : List String) : List Registration × Nat :=
  if row.length < 45 then (acc.1, acc.2 + 1)
  else
    match p row with
    | Except.ok recs => (acc.1 ++ recs, acc.2)
    | Except.error _ => (acc.1, acc.2 + 1)

/-- The row loop over all data rows of the table: accumulated registrations
plus the skipped-row counter. -/
def processBatch (p : List String → Except String (List Registration))
    (rows : List (List String)) : List Registration × Nat :=
  rows.foldl (batchStep p) ([], 0)

/-- The concrete row parser of this embedding never throws. -/
def rowParserTotal (row : List String) : Except String (List Registration) :=
  Except.ok (processRow row)

/-- Embeds `parseTransDate` of the stats job: reorder `DD-MM-YYYY ...` into
`YYYY-MM-DD`; a falsy input yields null; missing segments read back as the
text `undefined`, as interpolation of a destructured miss produces. -/
def parseTransDate (transDate : String) : Option String :=
  if transDate = "" then none
  else
    let datePart := (jsSplit transDate ' ').getD 0 ""
    let parts := jsSplit datePart '-'
    let day := parts.getD 0 "undefined"
    let month := parts.getD 1 "undefined"
    let year := parts.getD 2 "undefined"
    some (year ++ "-" ++ month ++ "-" ++ day)

/-- The fixed phase-cutoff date of the referral histogram. -/
def referralCutoffDate : String := "2025-10-09"

/-- The five referral-invitee triples of a registration document. -/
def inviteeSlots (r : StatsReg) : List (String × String × String) :=
  [(r.name_1, r.mobile_number_1, r.email_id_1), (r.name_2, r.mobile_number_2, r.email_id_2),
    (r.name_3, r.mobile_number_3, r.email_id_3), (r.name_4, r.mobile_number_4, r.email_id_4),
    (r.name_5, r.mobile_number_5, r.email_id_5)]

/-- Number of invitee slots with any non-empty name, mobile or email. -/
def inviteeCount (r : StatsReg) : Nat :=
  (inviteeSlots r).countP fun s => !(s.1 == "") || !(s.2.1 == "") || !(s.2.2 == "")

/-- The `continue` condition of the referral loop: a parsed date at or past the
cutoff. -/
def referralSkip (r : StatsReg) : Bool :=
  match parseTransDate r.Trans_Date with
  | none => false
  | some regDate => decide (referralCutoffDate ≤ regDate)

/-- Embeds the referral-histogram loop: buckets 0-5, indexed by invitee count,
over the registrations that are not skipped by the date check. -/
def referralStats (regs : List StatsReg) : List Nat :=
  regs.foldl
    (fun acc reg =>
      if referralSkip reg then acc
      else acc.set (inviteeCount reg) (acc.getD (inviteeCount reg) 0 + 1))
    (List.replicate 6 0)

/-- C4 counterexample: on a 10-character phone starting with 91, the
member-side normalization strips the prefix (losing the key) while the
previous-participants normalization keeps it. -/
theorem c4_counterexample : normPhoneHist "9123456789" ≠ normPhoneMember "9123456789" := by
  decide

/-- C4 (amended): the member-side and registration-side phone normalizations
are one function, but the previous-participants one differs; the three keys
agree exactly on inputs whose cleaned form does not both start with "91" and
have length 10. -/
theorem c4_phone_normalizations (s : String) :
    normPhoneRegSite s = normPhoneMember s ∧
      (¬(['9', '1'].isPrefixOf (phoneClean s) ∧ (phoneClean s).length = 10) →
        normPhoneHist s = normPhoneMember s) := by
  refine ⟨rfl, fun h => ?_⟩
  by_cases hp : ['9', '1'].isPrefixOf (phoneClean s)
  · by_cases hl : 10 < (phoneClean s).length
    · simp [normPhoneHist, normPhoneMember, strip91, hp, hl]
    · have h9 : (phoneClean s).length ≤ 9 := by
        rcases Nat.lt_or_ge (phoneClean s).length 10 with h1 | h1
        · omega
        · exact absurd ⟨hp, by omega⟩ h
      simp [normPhoneHist, normPhoneMember, strip91, hp, hl, List.length_drop,
        show ¬10 ≤ (phoneClean s).length from by omega,
        show ¬10 ≤ (phoneClean s).length - 2 from by omega]
  · simp [normPhoneHist, normPhoneMember, strip91, hp]

/-- Witness for the amended C4 statement at a 12-digit international form. -/
theorem c4_phone_normalizations_witness :
    ¬(['9', '1'].isPrefixOf (phoneClean "+91 98765 43210") ∧
        (phoneClean "+91 98765 43210").length = 10) ∧
      normPhoneHist "+91 98765 43210" = normPhoneMember "+91 98765 43210" :=
  ⟨by decide, (c4_phone_normalizations "+91 98765 43210").2 (by decide)⟩

/-- C10: with no protected-email markup and no email-shaped substring, the
extractor returns the trimmed input; in particular only a whitespace-only
input maps to the empty string. -/
theorem c10_extract_passthrough (s : String)
    (hp : jsIncludes s "[email&#160;protected]" = false) (hm : emailMatch s = none) :
    extractProtectedEmail s = jsTrim s := by
  unfold extractProtectedEmail
  by_cases h0 : s = "" ∨ jsTrim s = ""
  · rw [if_pos h0]
    rcases h0 with h0 | h0
    · subst h0; rfl
    · exact h0.symm
  · rw [if_neg h0, if_neg (by simp [hp]), hm]

/-- Witness for C10 on a concrete non-email text. -/
theorem c10_extract_passthrough_witness :
    jsIncludes "  just a note - call me!  " "[email&#160;protected]" = false ∧
      emailMatch "  just a note - call me!  " = none ∧
      extractProtectedEmail "  just a note - call me!  " = jsTrim "  just a note - call me!  " :=
  ⟨by decide, by decide, c10_extract_passthrough _ (by decide) (by decide)⟩

/-- The failing scenario for the name-only rule: one member and one unclaimed
registration with the identical normalized name, where the member has no
phone or email on file, so every candidate scores zero. -/
def memberC1 : ArpitMember := { fullName := "Asha Rao", mobileNumber := "", email := "" }

/-- The single name-matching candidate for `memberC1`. -/
def regC1 : StatsReg := { (default : StatsReg) with
  registrationId := "T1"
  customerName := "Asha Rao"
  phone := "9876543210"
  email := "asha@example.com" }

/-- C1: evaluating the matcher at the failing input. The names agree, the
candidate set is the singleton and every score is zero, yet the matcher
produces no link: the running best-candidate is only set on a strictly
positive score, so the single-name-match acceptance branch never fires. -/
theorem c1_single_name_candidate_left_unmatched :
    lowerTrim memberC1.fullName = lowerTrim regC1.customerName ∧
      scoreReg (normPhoneMember memberC1.mobileNumber) (lowerTrim memberC1.email) regC1 = 0 ∧
      runMatcher [regC1] [memberC1] = [] := by decide

/-- The running-best fold of the name step only returns scanned candidates. -/
theorem bestFold_mem (g : StatsReg → Nat) :
    ∀ (l : List StatsReg) (bp : Nat × Option StatsReg) (b : StatsReg),
      (l.foldl (fun bp r => if bp.1 < g r then (g r, some r) else bp) bp).2 = some b →
      bp.2 = some b ∨ b ∈ l := by
  intro l
  induction l with
  | nil => exact fun bp b hb => Or.inl hb
  | cons x xs ih =>
    intro bp b hb
    rw [List.foldl_cons] at hb
    rcases ih _ b hb with h2 | h2
    · by_cases hc : bp.1 < g x
      · rw [if_pos hc] at h2
        have hx : x = b := by simpa using h2
        exact Or.inr (hx ▸ List.mem_cons_self x xs)
      · rw [if_neg hc] at h2
        exact Or.inl h2
    · exact Or.inr (List.mem_cons_of_mem x h2)

/-- A name-step result comes from the filtered candidate list. -/
theorem nameStep_mem_filter (regs : List StatsReg) (used : List String)
    (mName : String) (mPhone : Option String) (mEmail : String) (r : StatsReg)
    (hr : nameStep regs used mName mPhone mEmail = some r) :
    r ∈ regs.filter fun x =>
      !(used.contains x.registrationId) &&
        (!(mName == "") && !(lowerTrim x.customerName == "") &&
          mName == lowerTrim x.customerName) := by
  simp only [nameStep] at hr
  split at hr
  next b heq =>
    split at hr
    · cases hr
      rcases bestFold_mem (scoreReg mPhone mEmail) _ _ _ heq with h2 | h2
      · cases h2
      · exact h2
    · cases hr
  next heq => cases hr

/-- The name step never returns a claimed registration. -/
theorem nameStep_unused (regs : List StatsReg) (used : List String)
    (mName : String) (mPhone : Option String) (mEmail : String) (r : StatsReg)
    (hr : nameStep regs used mName mPhone mEmail = some r) :
    used.contains r.registrationId = false := by
  have hmem := nameStep_mem_filter regs used mName mPhone mEmail r hr
  have hp := (List.mem_filter.mp hmem).2
  simp only [Bool.and_eq_true, Bool.not_eq_true'] at hp
  exact hp.1

/-- The phone fallback never returns a claimed registration. -/
theorem phoneStep_unused (regs : List StatsReg) (used : List String)
    (mPhone : Option String) (r : StatsReg) (hr : phoneStep regs used mPhone = some r) :
    used.contains r.registrationId = false := by
  unfold phoneStep at hr
  split at hr
  · have hp := List.find?_some hr
    simp only [Bool.and_eq_true, Bool.not_eq_true'] at hp
    exact hp.1
  · cases hr

/-- The email fallback never returns a claimed registration. -/
theorem emailStep_unused (regs : List StatsReg) (used : List String)
    (mEmail : String) (r : StatsReg) (hr : emailStep regs used mEmail = some r) :
    used.contains r.registrationId = false := by
  unfold emailStep at hr
  split at hr
  · cases hr
  · have hp := List.find?_some hr
    simp only [Bool.and_eq_true, Bool.not_eq_true'] at hp
    exact hp.1

/-- No step of the matcher returns a claimed registration. -/
theorem matchMember_unused (regs : List StatsReg) (used : List String)
    (m : ArpitMember) (r : StatsReg) (hr : matchMember regs used m = some r) :
    used.contains r.registrationId = false := by
  simp only [matchMember] at hr
  split at hr
  next x heq =>
    cases hr
    exact nameStep_unused _ _ _ _ _ _ heq
  next heq =>
    split at hr
    next y heq2 =>
      cases hr
      exact phoneStep_unused _ _ _ _ heq2
    next heq2 => exact emailStep_unused _ _ _ _ hr

/-- Soundness invariant of the matching loop: produced member indices are at
least the running index, both projections are duplicate-free, and no produced
registration id lies in the incoming claimed set. -/
theorem runMatcherAux_sound (regs : List StatsReg) :
    ∀ (ms : List ArpitMember) (used : List String) (idx : Nat),
      (∀ q ∈ runMatcherAux regs ms used idx, idx ≤ q.1) ∧
        ((runMatcherAux regs ms used idx).map Prod.fst).Nodup ∧
        ((runMatcherAux regs ms used idx).map Prod.snd).Nodup ∧
        ∀ x ∈ (runMatcherAux regs ms used idx).map Prod.snd, used.contains x = false := by
  intro ms
  induction ms with
  | nil =>
    intro used idx
    simp [runMatcherAux]
  | cons m ms ih =>
    intro used idx
    cases hm : matchMember regs used m with
    | none =>
      have h := ih used (idx + 1)
      simp only [runMatcherAux, hm]
      exact ⟨fun q hq => Nat.le_trans (Nat.le_succ idx) (h.1 q hq), h.2.1, h.2.2.1, h.2.2.2⟩
    | some r =>
      have h := ih (r.registrationId :: used) (idx + 1)
      simp only [runMatcherAux, hm]
      refine ⟨?_, ?_, ?_, ?_⟩
      · intro q hq
        rcases List.mem_cons.mp hq with hq | hq
        · subst hq; exact Nat.le_refl idx
        · exact Nat.le_trans (Nat.le_succ idx) (h.1 q hq)
      · rw [List.map_cons, List.nodup_cons]
        refine ⟨fun hmem => ?_, h.2.1⟩
        rcases List.mem_map.mp hmem with ⟨q, hq, hq1⟩
        have := h.1 q hq
        omega
      · rw [List.map_cons, List.nodup_cons]
        refine ⟨fun hmem => ?_, h.2.2.1⟩
        have hc := h.2.2.2 _ hmem
        simp at hc
      · intro x hx
        rw [List.map_cons] at hx
        rcases List.mem_cons.mp hx with hx | hx
        · subst hx
          exact matchMember_unused regs used m r hm
        · have hc := h.2.2.2 _ hx
          simp only [List.contains_cons, Bool.or_eq_false_iff] at hc
          exact hc.2

/-- C7: in the produced MatchLink set, member indices are pairwise distinct and
claimed registration ids are pairwise distinct: every GroupMember is paired
with at most one registration and every registration id is claimed by at most
one member; once claimed, an id is never selected again by any later step. -/
theorem c7_matchlinks_at_most_one_to_one (regs : List StatsReg) (members : List ArpitMember) :
    ((runMatcher regs members).map Prod.fst).Nodup ∧
      ((runMatcher regs members).map Prod.snd).Nodup :=
  ⟨(runMatcherAux_sound regs members [] 0).2.1, (runMatcherAux_sound regs members [] 0).2.2.1⟩

/-- Filling an already-filled string slot changes nothing. -/
theorem fillS_idem (a b : String) : fillS (fillS a b) b = fillS a b := by
  unfold fillS
  split_ifs <;> simp_all

/-- Filling an already-filled numeric slot changes nothing. -/
theorem fillQ_idem (a b : ℚ) : fillQ (fillQ a b) b = fillQ a b := by
  unfold fillQ
  split_ifs <;> simp_all

/-- Copying from the same primary twice equals copying once. -/
theorem fillFrom_idem (p x : Registration) : fillFrom p (fillFrom p x) = fillFrom p x := by
  simp [fillFrom, fillS_idem, fillQ_idem]

/-- `fillAux` preserves length. -/
theorem fillAux_length (p : Registration) (pIdx : Nat) :
    ∀ (i : Nat) (xs : List Registration), (fillAux p pIdx i xs).length = xs.length := by
  intro i xs
  induction xs generalizing i with
  | nil => rfl
  | cons x xs ih => simp [fillAux, ih]

/-- Elementwise description of `fillAux`. -/
theorem fillAux_get? (p : Registration) (pIdx : Nat) :
    ∀ (xs : List Registration) (i k : Nat),
      (fillAux p pIdx i xs).get? k =
        (xs.get? k).map fun x => if i + k = pIdx then x else fillFrom p x := by
  intro xs
  induction xs with
  | nil => intro i k; simp [fillAux]
  | cons x xs ih =>
    intro i k
    cases k with
    | zero => simp [fillAux]
    | succ k =>
      simp only [fillAux, List.get?_cons_succ, List.get?]
      rw [show i + (k + 1) = (i + 1) + k from by omega]
      exact ih (i + 1) k

/-- The person-level fields of a record: names, contact and age. -/
def personView (r : Registration) :
    String × String × String × String × String × String × String × ℚ :=
  (r.first_name, r.last_name, r.customerName, r.phone, r.email, r.primary_phoneNo,
    r.primary_email, r.age)

/-- `fillAux` never touches person-level fields. -/
theorem fillAux_map_personView (p : Registration) (pIdx : Nat) :
    ∀ (i : Nat) (xs : List Registration),
      (fillAux p pIdx i xs).map personView = xs.map personView := by
  intro i xs
  induction xs generalizing i with
  | nil => rfl
  | cons x xs ih =>
    simp only [fillAux, List.map_cons, ih]
    congr 1
    split <;> rfl

/-- The primary index is a valid index of a non-empty group. -/
theorem primaryIdx_lt (g : List Registration) (hg : g ≠ []) : primaryIdx g < g.length := by
  simp only [primaryIdx]
  split_ifs with hj
  · exact hj
  · cases g with
    | nil => exact absurd rfl hg
    | cons a l => simp

/-- A second `fillAux` pass with the same primary and index changes nothing. -/
theorem fillAux_idem (p : Registration) (pIdx : Nat) :
    ∀ (i : Nat) (xs : List Registration),
      fillAux p pIdx i (fillAux p pIdx i xs) = fillAux p pIdx i xs := by
  intro i xs
  induction xs generalizing i with
  | nil => rfl
  | cons x xs ih =>
    simp only [fillAux]
    congr 1
    · by_cases hI : i = pIdx
      · simp [hI]
      · simp [hI, fillFrom_idem]
    · exact ih (i + 1)

/-- C9: transaction backfill modifies only transaction-level fields of
non-primary records: every record keeps its person-level fields, and the
primary record itself is entirely unchanged. -/
theorem c9_backfill_frame (g : List Registration) :
    (backfillGroup g).map personView = g.map personView ∧
      (backfillGroup g).get? (primaryIdx g) = g.get? (primaryIdx g) := by
  unfold backfillGroup
  split_ifs with hg
  · refine ⟨fillAux_map_personView _ _ 0 g, ?_⟩
    rw [fillAux_get?]
    cases hq : g.get? (primaryIdx g) <;> simp
  · exact ⟨rfl, rfl⟩

/-- C2 (amended): backfill is idempotent on every group whose primary-record
selection is unchanged by the first pass — in particular whenever the group's
first record already has complete transaction details. In general the first
pass can complete an earlier record and shift the primary, so a second pass
may copy further fields. -/
theorem c2_backfill_idempotent_stable_primary (g : List Registration)
    (h : primaryIdx (backfillGroup g) = primaryIdx g) :
    backfillGroup (backfillGroup g) = backfillGroup g := by
  by_cases hg : 1 < g.length
  · have hbf : backfillGroup g = fillAux (g.getD (primaryIdx g) default) (primaryIdx g) 0 g := by
      unfold backfillGroup
      rw [if_pos hg]
    have hlen : (backfillGroup g).length = g.length := by
      rw [hbf]
      exact fillAux_length _ _ 0 g
    have hprim : (backfillGroup g).getD (primaryIdx g) default =
        g.getD (primaryIdx g) default := by
      rw [hbf, List.getD_eq_get?, List.getD_eq_get?, fillAux_get?]
      cases hq : g.get? (primaryIdx g) <;> simp
    set t := backfillGroup g with hT
    rw [backfillGroup, if_pos (by rw [hlen]; exact hg), h, hprim, hbf]
    rw [fillAux_idem]
  · have hid : backfillGroup g = g := by
      unfold backfillGroup
      rw [if_neg hg]
    rw [hid, hid]

/-- A group where the first pass shifts the primary: the first record lacks
only the transaction date but carries an item description, the second is
complete but lacks the item description. -/
def regC2A : Registration := { (default : Registration) with
  Trans_Id := "T9"
  Cinema_Name := "PVR"
  Event_Name := "GYF"
  Show_Date_Disp := "06-12"
  Ticket_Qty := 1
  Item_Desc := "VIP"
  customerName := "A" }

/-- The complete sibling of `regC2A` in the same transaction group. -/
def regC2B : Registration := { (default : Registration) with
  Trans_Id := "T9"
  Trans_Date := "01-10-2025"
  Cinema_Name := "PVR"
  Event_Name := "GYF"
  Show_Date_Disp := "06-12"
  Ticket_Qty := 1
  customerName := "B" }

/-- C2 counterexample: running the backfill twice on this group changes it
again — the first pass completes the first record, the second pass selects it
as primary and copies its item description into the old primary. -/
theorem c2_counterexample :
    backfillGroup (backfillGroup [regC2A, regC2B]) ≠ backfillGroup [regC2A, regC2B] := by
  decide

/-- Witness for the amended C2 statement on a group with a stable primary. -/
theorem c2_backfill_idempotent_stable_primary_witness :
    primaryIdx (backfillGroup [regC2B, regC2A]) = primaryIdx [regC2B, regC2A] ∧
      backfillGroup (backfillGroup [regC2B, regC2A]) = backfillGroup [regC2B, regC2A] :=
  ⟨by decide, c2_backfill_idempotent_stable_primary _ (by decide)⟩

/-- Every produced base record carries quantity 1. -/
theorem parseRowCore_base_quantity (cells : List String) :
    (parseRowCore cells).base.quantity = 1 := rfl

/-- C5: a complimentary row with raw quantity `q > 1` expands into exactly `q`
records keyed `transId_comp_1 … transId_comp_q`, each with quantity 1; any
other row yields one record keyed by the bare transaction id. -/
theorem c5_ticket_expander (cells : List String) :
    (∀ q : Nat, (parseRowCore cells).isComp = true → (parseRowCore cells).ticketQty = (q : ℚ) →
        1 < q →
        processRow cells =
          (List.range q).map fun k =>
            { (parseRowCore cells).base with
              registrationId := (parseRowCore cells).transId ++ "_comp_" ++ toString (k + 1) }) ∧
      ((parseRowCore cells).isComp = false ∨ (parseRowCore cells).ticketQty ≤ 1 →
        processRow cells =
          [{ (parseRowCore cells).base with
            registrationId := (parseRowCore cells).transId }]) ∧
      ∀ r ∈ processRow cells, r.quantity = 1 := by
  refine ⟨?_, ?_, ?_⟩
  · intro q hcomp hq hq1
    have hq1' : (1 : ℚ) < (q : ℚ) := by exact_mod_cast hq1
    simp [processRow, expandEntries, hcomp, hq, hq1', Int.ceil_natCast]
  · intro hdisj
    have hcond : ¬((parseRowCore cells).isComp = true ∧ 1 < (parseRowCore cells).ticketQty) := by
      rcases hdisj with hfalse | hle
      · intro hc
        rw [hfalse] at hc
        cases hc.1
      · exact fun hc => absurd hc.2 (not_lt.mpr hle)
    simp only [processRow, expandEntries, if_neg hcond]
    norm_num
  · intro r hr
    simp only [processRow, expandEntries] at hr
    rcases List.mem_map.mp hr with ⟨k, hk, rfl⟩
    simpa using parseRowCore_base_quantity cells

/-- A complimentary three-ticket row: zero amount, quantity 3, 46 cells. -/
def rowC5 : List String :=
  ["", "B1", "T1", "Y", "01-10-2025 10:00:00", "PVR", "GYF", "06-12",
    "1", "Complimentary", "3", "0", "-", "0", "0", "0", "0", "", "0", "0",
    "Asha", "Rao", "25", "F", "9876543210", "asha@example.com", "400001",
    "", "", "", "", "", "", "", "", "", "", "", "", "", "", "", "", "", "Yes", ""]

/-- Witness for C5 on the concrete complimentary row. -/
theorem c5_ticket_expander_witness :
    (parseRowCore rowC5).isComp = true ∧ (parseRowCore rowC5).ticketQty = (3 : ℚ) ∧
      processRow rowC5 =
        (List.range 3).map fun k =>
          { (parseRowCore rowC5).base with
            registrationId := (parseRowCore rowC5).transId ++ "_comp_" ++ toString (k + 1) } :=
  ⟨by decide, by decide, (c5_ticket_expander rowC5).1 3 (by decide) (by decide) (by decide)⟩

/-- Dropping whitespace from a list ending in a non-whitespace character
leaves something. -/
theorem dropWhile_snoc_ne (c : Char) (h : c.isWhitespace = false) :
    ∀ l1 : List Char, (l1 ++ [c]).dropWhile Char.isWhitespace ≠ [] := by
  intro l1
  induction l1 with
  | nil => simp [List.dropWhile_cons, h]
  | cons a t ih =>
    rw [List.cons_append, List.dropWhile_cons]
    split_ifs
    · exact ih
    · simp

/-- Trimming a list headed by a non-whitespace character leaves something. -/
theorem trimChars_cons_ne (c : Char) (l : List Char) (h : c.isWhitespace = false) :
    trimChars (c :: l) ≠ [] := by
  unfold trimChars
  rw [List.dropWhile_cons, if_neg (by simp [h])]
  rw [Ne, List.reverse_eq_nil_iff, List.reverse_cons]
  exact dropWhile_snoc_ne c h l.reverse

/-- The guest fallback always yields a non-empty customer name. -/
theorem guestFallback_customerName_ne (t : String) (p : String × String × String × String) :
    (guestFallback t p).2.2.1 ≠ "" := by
  simp only [guestFallback]
  split
  · intro he
    have hdata := congrArg String.data he
    simp only [jsTrim, String.data_append] at hdata
    exact trimChars_cons_ne 'G' _ (by decide) (by simpa using hdata)
  · next h => exact h

/-- The resolved customer name of a row is never empty: either an earlier
step produced a non-empty name, or the synthetic guest label applies. -/
theorem resolveNamePhone_customerName_ne (cells : List String) :
    (resolveNamePhone cells).2.2.1 ≠ "" := by
  simp only [resolveNamePhone]
  exact guestFallback_customerName_ne _ _

/-- The base record's display name is the resolved customer name. -/
theorem parseRowCore_base_customerName (cells : List String) :
    (parseRowCore cells).base.customerName = (resolveNamePhone cells).2.2.1 := rfl

/-- Every element of `fillAux` is an input record or a filled input record. -/
theorem fillAux_mem (p : Registration) (pIdx : Nat) :
    ∀ (i : Nat) (xs : List Registration) (y : Registration),
      y ∈ fillAux p pIdx i xs → ∃ x ∈ xs, y = x ∨ y = fillFrom p x := by
  intro i xs
  induction xs generalizing i with
  | nil => intro y hy; cases hy
  | cons x xs ih =>
    intro y hy
    rcases List.mem_cons.mp hy with hy | hy
    · refine ⟨x, List.mem_cons_self x xs, ?_⟩
      by_cases hI : i = pIdx
      · rw [if_pos hI] at hy
        exact Or.inl hy
      · rw [if_neg hI] at hy
        exact Or.inr hy
    · rcases ih (i + 1) y hy with ⟨x2, hx2, hc⟩
      exact ⟨x2, List.mem_cons_of_mem x hx2, hc⟩

/-- C6: every record normalized from a row of at least 45 cells carries a
non-empty display name, and transaction backfill preserves non-emptiness of
display names across a group. -/
theorem c6_displayName_nonempty (cells : List String) (h45 : 45 ≤ cells.length) :
    (∀ r ∈ processRow cells, r.customerName ≠ "") ∧
      ∀ g : List Registration, (∀ x ∈ g, x.customerName ≠ "") →
        ∀ y ∈ backfillGroup g, y.customerName ≠ "" := by
  constructor
  · intro r hr
    simp only [processRow, expandEntries] at hr
    rcases List.mem_map.mp hr with ⟨k, hk, rfl⟩
    have hb := parseRowCore_base_customerName cells
    have hn := resolveNamePhone_customerName_ne cells
    simpa [hb] using hn
  · intro g hg y hy
    unfold backfillGroup at hy
    split_ifs at hy with hlen
    · rcases fillAux_mem _ _ 0 g y hy with ⟨x, hx, hc | hc⟩
      · exact hc ▸ hg x hx
      · have hfc : (fillFrom (g.getD (primaryIdx g) default) x).customerName =
            x.customerName := rfl
        rw [hc, hfc]
        exact hg x hx
    · exact hg y hy

/-- A minimal 45-cell row with discrete first/last name columns. -/
def rowC6 : List String :=
  ["", "B2", "TXYZ1234", "Y", "02-10-2025 11:00:00", "PVR", "GYF", "06-12",
    "1", "A1", "1", "500", "Festival Pass", "0", "0", "0", "0", "", "0", "0",
    "Disha", "Daga", "30", "F", "9812345678", "disha@example.com", "400002",
    "", "", "", "", "", "", "", "", "", "", "", "", "", "", "", "", "", "Yes"]

/-- Witness for C6 on the concrete row. -/
theorem c6_displayName_nonempty_witness :
    45 ≤ rowC6.length ∧ ∀ r ∈ processRow rowC6, r.customerName ≠ "" :=
  ⟨by decide, (c6_displayName_nonempty rowC6 (by decide)).1⟩

/-- A short or throwing row only bumps the skipped counter. -/
theorem batchStep_skip (p : List String → Except String (List Registration))
    (acc : List Registration × Nat) (row : List String)
    (h : row.length < 45 ∨ ∃ e, p row = Except.error e) :
    batchStep p acc row = (acc.1, acc.2 + 1) := by
  by_cases hlen : row.length < 45
  · simp [batchStep, hlen]
  · rcases h with h | ⟨e, he⟩
    · exact absurd h hlen
    · simp [batchStep, hlen, he]

/-- The skipped counter is a pure offset through the row fold. -/
theorem processBatch_shift (p : List String → Except String (List Registration)) :
    ∀ (rows : List (List String)) (a : List Registration) (k n : Nat),
      rows.foldl (batchStep p) (a, k + n) =
        ((rows.foldl (batchStep p) (a, k)).1, (rows.foldl (batchStep p) (a, k)).2 + n) := by
  intro rows
  induction rows with
  | nil => intro a k n; rfl
  | cons row rows ih =>
    intro a k n
    have hstep : batchStep p (a, k + n) row =
        ((batchStep p (a, k) row).1, (batchStep p (a, k) row).2 + n) := by
      simp only [batchStep]
      split_ifs with h1
      · simp [Nat.add_right_comm]
      · split <;> simp [Nat.add_right_comm]
    rw [List.foldl_cons, List.foldl_cons, hstep, ih, Prod.mk.eta]

/-- C8: a row with fewer than 45 cells, or one whose parse throws, yields no
registration, bumps the skipped counter by exactly one, and leaves the
processing of all other rows unchanged — the batch always completes. -/
theorem c8_bad_rows_skip_and_continue
    (p : List String → Except String (List Registration))
    (pre post : List (List String)) (row : List String)
    (h : row.length < 45 ∨ ∃ e, p row = Except.error e) :
    processBatch p (pre ++ row :: post) =
      ((processBatch p (pre ++ post)).1, (processBatch p (pre ++ post)).2 + 1) := by
  unfold processBatch
  rw [List.foldl_append, List.foldl_append, List.foldl_cons, batchStep_skip p _ row h]
  rw [processBatch_shift p post (pre.foldl (batchStep p) ([], 0)).1
    (pre.foldl (batchStep p) ([], 0)).2 1, Prod.mk.eta]

/-- A parser collaborator for the witness that never produces records. -/
def trivialRowParse : List String → Except String (List Registration) :=
  fun _ => Except.ok []

/-- Witness for C8 at an empty (0-cell) row. -/
theorem c8_bad_rows_skip_and_continue_witness :
    ([] : List String).length < 45 ∧
      processBatch trivialRowParse [[]] =
        ((processBatch trivialRowParse ([] ++ [])).1,
          (processBatch trivialRowParse ([] ++ [])).2 + 1) :=
  ⟨by decide, c8_bad_rows_skip_and_continue trivialRowParse [] [] [] (Or.inl (by decide))⟩

/-- Reading back the bucket just incremented. -/
theorem getD_set_self (l : List Nat) (i : Nat) (v : Nat) (h : i < l.length) :
    (l.set i v).getD i 0 = v := by
  rw [List.getD_eq_getElem?_getD, List.getElem?_set_self h]
  rfl

/-- Reading a different bucket after an increment. -/
theorem getD_set_ne (l : List Nat) (i j : Nat) (v : Nat) (h : i ≠ j) :
    (l.set i v).getD j 0 = l.getD j 0 := by
  rw [List.getD_eq_getElem?_getD, List.getD_eq_getElem?_getD, List.getElem?_set_ne h]

/-- The referral fold characterized bucket-by-bucket as a filter length. -/
theorem referralStats_foldl (k : Nat) (hk : k < 6) :
    ∀ (regs : List StatsReg) (acc : List Nat), acc.length = 6 →
      (regs.foldl
          (fun acc reg =>
            if referralSkip reg then acc
            else acc.set (inviteeCount reg) (acc.getD (inviteeCount reg) 0 + 1)) acc).getD k 0 =
        acc.getD k 0 +
          (regs.filter fun r => !referralSkip r && (inviteeCount r == k)).length := by
  intro regs
  induction regs with
  | nil => intro acc hacc; simp
  | cons r rs ih =>
    intro acc hacc
    rw [List.foldl_cons]
    by_cases hskip : referralSkip r
    · rw [if_pos hskip, ih acc hacc]
      simp [List.filter_cons, hskip]
    · rw [if_neg hskip]
      have hlen : (acc.set (inviteeCount r) (acc.getD (inviteeCount r) 0 + 1)).length = 6 := by
        rw [List.length_set]
        exact hacc
      rw [ih _ hlen]
      by_cases hik : inviteeCount r = k
      · rw [hik, getD_set_self _ _ _ (by omega)]
        simp only [List.filter_cons, hskip, hik]
        simp
        omega
      · rw [getD_set_ne _ _ _ _ hik]
        simp [List.filter_cons, hskip, hik]

/-- C3 (amended): a registration is counted in the referral histogram exactly
when its transaction date is absent or unparsable, or its reformatted date is
lexicographically before the cutoff 2025-10-09; the form version is never
consulted. Bucket `k` holds the number of such registrations with `k`
non-empty invitee slots. -/
theorem c3_referral_histogram (regs : List StatsReg) (k : Nat) (hk : k < 6) :
    (referralStats regs).getD k 0 =
      (regs.filter fun r =>
        (match parseTransDate r.Trans_Date with
          | none => true
          | some d => decide (d < referralCutoffDate)) && (inviteeCount r == k)).length := by
  unfold referralStats
  rw [referralStats_foldl k hk regs (List.replicate 6 0) (by simp)]
  have hrepl : (List.replicate 6 0).getD k 0 = 0 := by
    rw [List.getD_eq_getElem?_getD, List.getElem?_replicate]
    simp [hk]
  rw [hrepl, Nat.zero_add]
  congr 1
  apply List.filter_congr
  intro r _
  congr 1
  unfold referralSkip
  cases hp : parseTransDate r.Trans_Date with
  | none => rfl
  | some d =>
    rw [← decide_not]
    exact decide_eq_decide.mpr not_le

/-- A registration with an unparsable transaction date and one invitee. -/
def regC3 : StatsReg := { (default : StatsReg) with name_1 := "Invitee One" }

/-- C3 counterexample: a registration whose date cannot be parsed is not
excluded — it is counted into bucket 1 of the histogram. -/
theorem c3_counterexample :
    parseTransDate regC3.Trans_Date = none ∧ (referralStats [regC3]).getD 1 0 = 1 := by
  decide

/-- A pre-cutoff registration with two invitees. -/
def regC3W : StatsReg := { (default : StatsReg) with
  Trans_Date := "08-10-2025 23:59:59"
  name_1 := "A"
  name_2 := "B" }

/-- Witness for the amended C3 statement at bucket 2. -/
theorem c3_referral_histogram_witness :
    (2 : Nat) < 6 ∧
      (referralStats [regC3W]).getD 2 0 =
        ([regC3W].filter fun r =>
          (match parseTransDate r.Trans_Date with
            | none => true
            | some d => decide (d < referralCutoffDate)) && (inviteeCount r == 2)).length :=
  ⟨by decide, c3_referral_histogram [regC3W] 2 (by decide)⟩
